import Mathlib

/-!
Verification development for the statefun-rust worker SDK.

The definitions below are a shallow embedding of the invocation engine of
the `statefun-sdk` crate: the function registry (`function_registry.rs`),
the invocation bridge (`invocation_bridge.rs`), the per-invocation context
(`context.rs`), the effects accumulator (`effects.rs`), messages
(`message.rs`) and the built-in serialization codecs (`serialization.rs`).

Modelling conventions:
- Rust `String` keys and payload typenames are Lean `String`s; byte buffers
  (`Vec<u8>`) are `List Nat`.
- `std::time::Duration` values are carried as whole milliseconds (`Nat`),
  which is the only granularity the bridge reads (`as_millis()`).
- `HashMap<K, V>` is modelled as an association list with insert-replace
  semantics keyed by decidable equality of the full key, which is
  observationally equivalent to the Rust map for `get`/`insert`.
- Trait-object handlers (`Fn(Context, Message) -> Effects`) are plain Lean
  functions; user serializers are bundled as explicit function arguments.
-/

/-- `FunctionType` from `function_type.rs`: (namespace, name). The proto field
`namespace` is a Lean keyword, so it is called `nspace` here. -/
structure FunctionType where
  nspace : String
  name : String
deriving DecidableEq

/-- The wire protobuf `Address` (namespace, type, id); the `type` field is
called `typ` here. -/
structure ProtoAddress where
  nspace : String
  typ : String
  id : String
deriving DecidableEq

/-- `Address` from `address.rs`: a `FunctionType` plus an instance id. -/
structure Address where
  function_type : FunctionType
  id : String
deriving DecidableEq

/-- `Address::from_proto`. -/
def Address.from_proto (proto_address : ProtoAddress) : Address :=
  { function_type := { nspace := proto_address.nspace, name := proto_address.typ }
  , id := proto_address.id }

/-- `Address::into_proto`. -/
def Address.into_proto (a : Address) : ProtoAddress :=
  { nspace := a.function_type.nspace, typ := a.function_type.name, id := a.id }

/-- `EgressIdentifier` from `egress_identifier.rs`. -/
structure EgressIdentifier where
  nspace : String
  name : String
deriving DecidableEq

/-- `ExpirationType` from `expiration.rs`. -/
inductive ExpirationType where
  | AfterInvoke
  | AfterWrite
deriving DecidableEq

/-- `Expiration` from `expiration.rs`; `time_to_live` is kept in
milliseconds, the only granularity the bridge ever reads. -/
structure Expiration where
  expiration_type : Option ExpirationType
  time_to_live_ms : Nat
deriving DecidableEq

/-- `Expiration::never()`. -/
def Expiration.never : Expiration :=
  { expiration_type := none, time_to_live_ms := 0 }

/-- `ValueSpecBase` from `value_spec_base.rs`: name, typename and expiration.
Equality (used as the `HashMap` key) is structural on all three fields, as in
the derived Rust `PartialEq`/`Hash`. -/
structure ValueSpecBase where
  name : String
  typename : String
  expiration : Expiration
deriving DecidableEq

/-- The wire `TypedValue` (typename, has_value, value). -/
structure TypedValue where
  typename : String
  has_value : Bool
  value : List Nat
deriving DecidableEq

/-- The working state map `HashMap<ValueSpecBase, Vec<u8>>`, modelled as an
association list with insert-replace semantics. -/
abbrev StateMap := List (ValueSpecBase × List Nat)

/-- `HashMap::get` on the working state map: lookup by full-key equality. -/
def lookupState : StateMap → ValueSpecBase → Option (List Nat)
  | [], _ => none
  | (k, v) :: rest, key => if k = key then some v else lookupState rest key

/-- `HashMap::insert` on the working state map: replace the value when the
full key is present, append otherwise. -/
def insertState : StateMap → ValueSpecBase → List Nat → StateMap
  | [], key, val => [(key, val)]
  | (k, v) :: rest, key, val =>
      if k = key then (key, val) :: rest else (k, v) :: insertState rest key val

/-- `StateUpdate` from `state_update.rs`. -/
inductive StateUpdate where
  | Update (spec : ValueSpecBase) (bytes : List Nat)
  | Delete (spec : ValueSpecBase)
deriving DecidableEq

/-- The `ValueSpecBase` key carried by a `StateUpdate` (the key under which
`update_state` in `invocation_bridge.rs` stores it in both maps). -/
def StateUpdate.spec : StateUpdate → ValueSpecBase
  | .Update s _ => s
  | .Delete s => s

/-- `Message` from `message.rs`: a received `TypedValue`. -/
structure Message where
  typed_value : TypedValue
deriving DecidableEq

/-- `Message::new`. -/
def Message.new (typed_value : TypedValue) : Message :=
  { typed_value := typed_value }

/-- `Message::is::<T>`: compares the payload typename with `T::get_typename()`
(passed here explicitly as `expected_typename`). -/
def Message.is (m : Message) (expected_typename : String) : Bool :=
  m.typed_value.typename == expected_typename

/-- Model of Rust's `Debug` (`{:?}`) escaping for one character of a string:
quotes, backslashes, newline, carriage return and tab are escaped, other
characters print as themselves. -/
def rustDebugEscapeChar (c : Char) : String :=
  if c = Char.ofNat 34 then String.mk [Char.ofNat 92, Char.ofNat 34]
  else if c = Char.ofNat 92 then String.mk [Char.ofNat 92, Char.ofNat 92]
  else if c = Char.ofNat 10 then String.mk [Char.ofNat 92, Char.ofNat 110]
  else if c = Char.ofNat 13 then String.mk [Char.ofNat 92, Char.ofNat 114]
  else if c = Char.ofNat 9 then String.mk [Char.ofNat 92, Char.ofNat 116]
  else String.mk [c]

/-- Model of Rust's `format!` with a `{:?}` specifier applied to a string:
the string is printed wrapped in double quotes, with escaping. -/
def rustDebugString (s : String) : String :=
  String.mk [Char.ofNat 34] ++ String.join (s.toList.map rustDebugEscapeChar)
    ++ String.mk [Char.ofNat 34]

/-- `Message::get::<T>` from `message.rs` lines 17-30: if the payload typename
differs from `T::get_typename()` the error message is built with `format!`
using `{:?}` for both typenames; otherwise the payload is deserialized with
`T::deserialize`. `T` is made explicit via `expected_typename` and `deser`. -/
def Message.get {T : Type} (m : Message) (expected_typename : String)
    (deser : String → List Nat → Except String T) : Except String T :=
  if !(m.is expected_typename) then
    .error ("Incompatible types. Expected: " ++ rustDebugString expected_typename
      ++ " Payload: " ++ rustDebugString m.typed_value.typename)
  else
    deser m.typed_value.typename m.typed_value.value

/-- `Context` from `context.rs`: the working state map plus the proto
addresses of callee and caller. -/
structure Context where
  state : StateMap
  self_address : ProtoAddress
  caller_address : ProtoAddress

/-- `Context::self_address`. -/
def Context.selfAddress (ctx : Context) : Address :=
  Address.from_proto ctx.self_address

/-- `Context::caller_address`. -/
def Context.callerAddress (ctx : Context) : Address :=
  Address.from_proto ctx.caller_address

/-- `Context::get_state` from `context.rs` lines 47-58: a `HashMap` lookup of
the spec key (`value_spec.into()`); on a hit the stored bytes are fed to the
spec's deserializer together with the spec's typename, on a miss the result
is `None`. The value type `T` and the deserializer field of `ValueSpec<T>`
are passed explicitly. -/
def Context.get_state {T : Type} (ctx : Context) (value_spec : ValueSpecBase)
    (deserializer : String → List Nat → T) : Option T :=
  match lookupState ctx.state value_spec with
  | some serialized => some (deserializer value_spec.typename serialized)
  | none => none

/-- `DelayedInvocation` from `delayed_invocation.rs`; the delay is kept in
milliseconds. -/
structure DelayedInvocation where
  address : Address
  delay_ms : Nat
  cancellation_token : String
  typename : String
  bytes : List Nat
deriving DecidableEq

/-- `Effects` from `effects.rs` lines 16-23: five append-only vectors. -/
structure Effects where
  invocations : List (Address × String × List Nat)
  delayed_invocations : List DelayedInvocation
  cancelled_delayed_invocations : List String
  egress_messages : List (EgressIdentifier × String × List Nat)
  state_updates : List StateUpdate
deriving DecidableEq

/-- `Effects::new()`. -/
def Effects.new : Effects :=
  { invocations := []
  , delayed_invocations := []
  , cancelled_delayed_invocations := []
  , egress_messages := []
  , state_updates := [] }

/-- A user value together with its `TypeName` and `Serializable::serialize`
implementation (the trait data of `T` in `effects.rs`). -/
structure SerializableValue where
  typename : String
  serialize : String → Except String (List Nat)

/-- `Effects::send`: serialize with the value's typename, then append to
`invocations`; a serializer error is returned and nothing is appended. -/
def Effects.send (e : Effects) (address : Address) (value : SerializableValue) :
    Except String Effects :=
  match value.serialize value.typename with
  | .ok serialized =>
      .ok { e with invocations := e.invocations ++ [(address, value.typename, serialized)] }
  | .error err => .error err

/-- `Effects::send_after`: serialize, then append a `DelayedInvocation`. -/
def Effects.send_after (e : Effects) (address : Address) (delay_ms : Nat)
    (cancellation_token : String) (value : SerializableValue) : Except String Effects :=
  match value.serialize value.typename with
  | .ok serialized =>
      .ok { e with delayed_invocations := e.delayed_invocations ++
        [{ address := address, delay_ms := delay_ms,
           cancellation_token := cancellation_token,
           typename := value.typename, bytes := serialized }] }
  | .error err => .error err

/-- `Effects::cancel_delayed_message`: append the token. -/
def Effects.cancel_delayed_message (e : Effects) (cancellation_token : String) : Effects :=
  { e with cancelled_delayed_invocations :=
      e.cancelled_delayed_invocations ++ [cancellation_token] }

/-- `Effects::egress`: serialize, then append the egress record. -/
def Effects.egress (e : Effects) (identifier : EgressIdentifier)
    (value : SerializableValue) : Except String Effects :=
  match value.serialize value.typename with
  | .ok serialized =>
      .ok { e with egress_messages :=
        e.egress_messages ++ [(identifier, value.typename, serialized)] }
  | .error err => .error err

/-- `Effects::update_state`: serialize with the spec's typename, then append
an `Update` carrying the spec's `ValueSpecBase`. -/
def Effects.updateState (e : Effects) (value_spec : ValueSpecBase)
    (value : SerializableValue) : Except String Effects :=
  match value.serialize value_spec.typename with
  | .ok serialized =>
      .ok { e with state_updates := e.state_updates ++ [.Update value_spec serialized] }
  | .error err => .error err

/-- `Effects::delete_state`: append a `Delete` carrying the spec's
`ValueSpecBase`. -/
def Effects.deleteState (e : Effects) (value_spec : ValueSpecBase) : Effects :=
  { e with state_updates := e.state_updates ++ [.Delete value_spec] }

/-- `MissingStateCollection` from `missing_state_collection.rs`. -/
structure MissingStateCollection where
  states : List ValueSpecBase
deriving DecidableEq

/-- `InvocationError` from `error.rs` (the `ProtobufError` variant lives at
the transport boundary and is unreachable in the embedded scope). -/
inductive InvocationError where
  | FunctionNotFound (ft : FunctionType)
  | MissingStates (c : MissingStateCollection)
deriving DecidableEq

/-- `FnInvokableFunction` from `function_registry.rs`: declared value specs
plus the handler closure. -/
structure FnInvokableFunction where
  value_specs : List ValueSpecBase
  function : Context → Message → Effects

/-- The missing-state scan of `FnInvokableFunction::invoke` (lines 109-127):
a declared spec is missing when no cell of the working state map has the
same `name`; comparison is on the name only, and declared order is kept. -/
def missingStatesOf (value_specs : List ValueSpecBase) (state : StateMap) :
    List ValueSpecBase :=
  value_specs.filter (fun vs => !(state.any (fun context_spec => vs.name == context_spec.1.name)))

/-- `FnInvokableFunction::invoke`: run the missing-state scan; report
`MissingStates` when any declared spec is absent, otherwise call the
handler. -/
def FnInvokableFunction.invoke (f : FnInvokableFunction) (context : Context)
    (message : Message) : Except InvocationError Effects :=
  let missing_states := missingStatesOf f.value_specs context.state
  if missing_states.isEmpty then
    .ok (f.function context message)
  else
    .error (.MissingStates { states := missing_states })

/-- `FunctionRegistry` from `function_registry.rs`: the
`HashMap<FunctionType, Box<dyn InvokableFunction>>`, modelled as a total
function into `Option`. -/
def FunctionRegistry := FunctionType → Option FnInvokableFunction

/-- `FunctionRegistry::new()`. -/
def FunctionRegistry.new : FunctionRegistry := fun _ => none

/-- `FunctionRegistry::register_fn` (lines 31-45): `HashMap::insert`, which
replaces any previous entry for the same `FunctionType`. -/
def FunctionRegistry.register_fn (reg : FunctionRegistry) (function_type : FunctionType)
    (value_specs : List ValueSpecBase) (function : Context → Message → Effects) :
    FunctionRegistry :=
  fun ft => if ft = function_type then
    some { value_specs := value_specs, function := function }
  else reg ft

/-- `FunctionRegistry::invoke` (lines 49-61): dispatch by `FunctionType`;
`FunctionNotFound` when no handler is registered. -/
def FunctionRegistry.invoke (reg : FunctionRegistry) (target_function : FunctionType)
    (context : Context) (message : Message) : Except InvocationError Effects :=
  match reg target_function with
  | some fn => fn.invoke context message
  | none => .error (.FunctionNotFound target_function)

/-! ## Wire types of the invocation bridge (`invocation_bridge.rs`) -/

/-- `ToFunction_PersistedValue`: one snapshot cell. -/
structure ToFnPersistedValue where
  state_name : String
  state_value : TypedValue
deriving DecidableEq

/-- `ToFunction_Invocation`: caller plus argument. -/
structure ToFnInvocation where
  caller : ProtoAddress
  argument : TypedValue
deriving DecidableEq

/-- `ToFunction_InvocationBatchRequest`. -/
structure InvocationBatchRequest where
  target : ProtoAddress
  state : List ToFnPersistedValue
  invocations : List ToFnInvocation
deriving DecidableEq

/-- `ToFunction`: carries one batch request. -/
structure ToFunction where
  invocation : InvocationBatchRequest
deriving DecidableEq

/-- `FromFunction_ExpirationSpec_ExpireMode`. -/
inductive ExpireMode where
  | NONE
  | AFTER_INVOKE
  | AFTER_WRITE
deriving DecidableEq

/-- `FromFunction_ExpirationSpec`. -/
structure ExpirationSpec where
  mode : ExpireMode
  expire_after_millis : Int
deriving DecidableEq

/-- `FromFunction_PersistedValueSpec`: one entry of `missing_values`. -/
structure PersistedValueSpec where
  state_name : String
  type_typename : String
  expiration_spec : ExpirationSpec
deriving DecidableEq

/-- `FromFunction_PersistedValueMutation_MutationType`. -/
inductive MutationType where
  | DELETE
  | MODIFY
deriving DecidableEq

/-- `FromFunction_PersistedValueMutation`; `state_value` is unset (`none`)
for deletes. -/
structure PersistedValueMutation where
  state_name : String
  mutation_type : MutationType
  state_value : Option TypedValue
deriving DecidableEq

/-- `FromFunction_Invocation`: one outgoing message. -/
structure FromFnInvocation where
  target : ProtoAddress
  argument : TypedValue
deriving DecidableEq

/-- `FromFunction_DelayedInvocation`. A cancellation request leaves `target`
and `argument` at their proto defaults (unset, modelled `none`) and
`delay_in_ms` at 0. -/
structure FromFnDelayedInvocation where
  is_cancellation_request : Bool
  target : Option ProtoAddress
  delay_in_ms : Int
  cancellation_token : String
  argument : Option TypedValue
deriving DecidableEq

/-- `FromFunction_EgressMessage`. -/
structure FromFnEgressMessage where
  egress_namespace : String
  egress_type : String
  argument : TypedValue
deriving DecidableEq

/-- `FromFunction_InvocationResponse`: the four repeated fields. -/
structure InvocationResponse where
  outgoing_messages : List FromFnInvocation
  delayed_invocations : List FromFnDelayedInvocation
  outgoing_egresses : List FromFnEgressMessage
  state_mutations : List PersistedValueMutation
deriving DecidableEq

/-- `FromFunction_InvocationResponse::new()`: all fields empty. -/
def InvocationResponse.new : InvocationResponse :=
  { outgoing_messages := []
  , delayed_invocations := []
  , outgoing_egresses := []
  , state_mutations := [] }

/-- `FromFunction`: either shape. -/
inductive FromFunction where
  | incomplete_invocation_context (missing_values : List PersistedValueSpec)
  | invocation_result (response : InvocationResponse)
deriving DecidableEq

/-- `to_typed_value` from `invocation_bridge.rs`: wraps typename and bytes,
setting `has_value`. -/
def to_typed_value (typename : String) (value : List Nat) : TypedValue :=
  { typename := typename, has_value := true, value := value }

/-- `parse_persisted_values`: seed the working state map from the snapshot
cells, keyed by (state_name, coordinator-supplied typename,
`Expiration::never()`) — the coordinator never echoes the expiration back. -/
def parse_persisted_values (persisted_values : List ToFnPersistedValue) : StateMap :=
  persisted_values.foldl
    (fun result persisted_value =>
      insertState result
        { name := persisted_value.state_name
        , typename := persisted_value.state_value.typename
        , expiration := Expiration.never }
        persisted_value.state_value.value)
    []

/-- The coalesced-state map `HashMap<ValueSpecBase, StateUpdate>`, modelled
like `StateMap`. -/
abbrev CoalescedStates := List (ValueSpecBase × StateUpdate)

/-- `HashMap::get` on the coalesced-state map. -/
def lookupCoalesced : CoalescedStates → ValueSpecBase → Option StateUpdate
  | [], _ => none
  | (k, v) :: rest, key => if k = key then some v else lookupCoalesced rest key

/-- `HashMap::insert` on the coalesced-state map. -/
def insertCoalesced : CoalescedStates → ValueSpecBase → StateUpdate → CoalescedStates
  | [], key, val => [(key, val)]
  | (k, v) :: rest, key, val =>
      if k = key then (key, val) :: rest else (k, v) :: insertCoalesced rest key val

/-- `update_state` from `invocation_bridge.rs` lines 157-193, applied to one
`StateUpdate`: a `Delete` clears the value to empty bytes in the working map
(the key is kept) and records a `Delete` in the coalesced map; an `Update`
stores the bytes in both maps. Both insertions use the spec as key. -/
def update_state_one (maps : StateMap × CoalescedStates) (state_update : StateUpdate) :
    StateMap × CoalescedStates :=
  match state_update with
  | .Delete value_spec =>
      (insertState maps.1 value_spec [],
       insertCoalesced maps.2 value_spec (.Delete value_spec))
  | .Update value_spec state =>
      (insertState maps.1 value_spec state,
       insertCoalesced maps.2 value_spec (.Update value_spec state))

/-- `update_state`: fold `update_state_one` over the handler's updates in
order. -/
def update_state (persisted_state : StateMap) (coalesced_state : CoalescedStates)
    (state_updates : List StateUpdate) : StateMap × CoalescedStates :=
  state_updates.foldl update_state_one (persisted_state, coalesced_state)

/-- `serialize_invocation_messages`: append the outgoing messages in order. -/
def serialize_invocation_messages (invocation_response : InvocationResponse)
    (invocation_messages : List (Address × String × List Nat)) : InvocationResponse :=
  let msgs : List FromFnInvocation := invocation_messages.map
    (fun m => { target := m.1.into_proto, argument := to_typed_value m.2.1 m.2.2 })
  { invocation_response with
      outgoing_messages := invocation_response.outgoing_messages ++ msgs }

/-- `serialize_delayed_invocation_messages`: append the delayed sends in
order, with `is_cancellation_request` left at its default `false`. -/
def serialize_delayed_invocation_messages (invocation_response : InvocationResponse)
    (delayed_invocations : List DelayedInvocation) : InvocationResponse :=
  let msgs : List FromFnDelayedInvocation := delayed_invocations.map
    (fun d => { is_cancellation_request := false
              , target := some d.address.into_proto
              , delay_in_ms := (d.delay_ms : Int)
              , cancellation_token := d.cancellation_token
              , argument := some (to_typed_value d.typename d.bytes) })
  { invocation_response with
      delayed_invocations := invocation_response.delayed_invocations ++ msgs }

/-- `serialize_cancelled_delayed_messages`: append the cancellations in
order; only `is_cancellation_request` and the token are set. -/
def serialize_cancelled_delayed_messages (invocation_response : InvocationResponse)
    (cancelled_delayed_invocations : List String) : InvocationResponse :=
  let msgs : List FromFnDelayedInvocation := cancelled_delayed_invocations.map
    (fun tok => { is_cancellation_request := true
                , target := none
                , delay_in_ms := 0
                , cancellation_token := tok
                , argument := none })
  { invocation_response with
      delayed_invocations := invocation_response.delayed_invocations ++ msgs }

/-- `serialize_egress_messages`: append the egress records in order. -/
def serialize_egress_messages (invocation_response : InvocationResponse)
    (egress_messages : List (EgressIdentifier × String × List Nat)) : InvocationResponse :=
  let msgs : List FromFnEgressMessage := egress_messages.map
    (fun m => { egress_namespace := m.1.nspace
              , egress_type := m.1.name
              , argument := to_typed_value m.2.1 m.2.2 })
  { invocation_response with
      outgoing_egresses := invocation_response.outgoing_egresses ++ msgs }

/-- The wire mutation built by `serialize_state_updates` for one coalesced
`StateUpdate`: a `Delete` carries only the name and the (default) `DELETE`
kind; an `Update` carries a `MODIFY` kind and a `TypedValue` with the spec's
typename. -/
def mutationOfUpdate : StateUpdate → PersistedValueMutation
  | .Delete value_spec =>
      { state_name := value_spec.name, mutation_type := .DELETE, state_value := none }
  | .Update value_spec state =>
      { state_name := value_spec.name, mutation_type := .MODIFY
      , state_value := some (to_typed_value value_spec.typename state) }

/-- `serialize_state_updates`: append a wire mutation per coalesced update. -/
def serialize_state_updates (invocation_response : InvocationResponse)
    (state_updates : List StateUpdate) : InvocationResponse :=
  { invocation_response with state_mutations :=
      invocation_response.state_mutations ++ state_updates.map mutationOfUpdate }

/-- The `FromFunction_ExpirationSpec` the bridge builds for one declared
spec (lines 66-85): `NONE` with 0 milliseconds when the spec never expires,
otherwise the matching mode with the TTL in milliseconds. -/
def expirationSpecOf (e : Expiration) : ExpirationSpec :=
  match e.expiration_type with
  | some .AfterInvoke => { mode := .AFTER_INVOKE, expire_after_millis := (e.time_to_live_ms : Int) }
  | some .AfterWrite => { mode := .AFTER_WRITE, expire_after_millis := (e.time_to_live_ms : Int) }
  | none => { mode := .NONE, expire_after_millis := 0 }

/-- The `FromFunction_PersistedValueSpec` built for one missing spec:
name, typename and derived expiration spec. -/
def toPersistedValueSpec (value_spec : ValueSpecBase) : PersistedValueSpec :=
  { state_name := value_spec.name
  , type_typename := value_spec.typename
  , expiration_spec := expirationSpecOf value_spec.expiration }

/-- The per-invocation loop of `invoke_from_proto` (lines 52-118): for each
queued invocation build a `Context` over the current working map, dispatch
through the registry, early-return an `IncompleteInvocationContext` on
`MissingStates`, propagate other errors, otherwise append the effects to the
response and apply the state updates to both maps. After the last
invocation, the drained coalesced updates are serialized into the
response. -/
def invokeLoop (reg : FunctionRegistry) (self_address : ProtoAddress) :
    List ToFnInvocation → StateMap → CoalescedStates → InvocationResponse →
    Except InvocationError FromFunction
  | [], _, coalesced_state_updates, invocation_response =>
      .ok (.invocation_result
        (serialize_state_updates invocation_response
          (coalesced_state_updates.map (fun kv => kv.2))))
  | invocation :: rest, persisted_values, coalesced_state_updates, invocation_response =>
      let context : Context :=
        { state := persisted_values, self_address := self_address
        , caller_address := invocation.caller }
      match reg.invoke (Address.from_proto self_address).function_type context
          (Message.new invocation.argument) with
      | .error (.MissingStates state_collection) =>
          .ok (.incomplete_invocation_context
            (state_collection.states.map toPersistedValueSpec))
      | .error e => .error e
      | .ok effects =>
          let invocation_response :=
            serialize_invocation_messages invocation_response effects.invocations
          let invocation_response :=
            serialize_delayed_invocation_messages invocation_response
              effects.delayed_invocations
          let invocation_response :=
            serialize_cancelled_delayed_messages invocation_response
              effects.cancelled_delayed_invocations
          let invocation_response :=
            serialize_egress_messages invocation_response effects.egress_messages
          let maps := update_state persisted_values coalesced_state_updates
            effects.state_updates
          invokeLoop reg self_address rest maps.1 maps.2 invocation_response

/-- `invoke_from_proto` from `invocation_bridge.rs`: take the batch request
apart and run the invocation loop over an empty response, the snapshot
state map and an empty coalesced map. -/
def invoke_from_proto (reg : FunctionRegistry) (to_function : ToFunction) :
    Except InvocationError FromFunction :=
  let batch_request := to_function.invocation
  invokeLoop reg batch_request.target batch_request.invocations
    (parse_persisted_values batch_request.state) [] InvocationResponse.new

/-! ## Derived views of a batch run

The following definitions restate the bridge loop as explicit sequences:
the state map each invocation's `Context` is built over, and the `Effects`
each handler call returns. They are related to `invoke_from_proto` by the
characterization lemmas further below. -/

/-- Apply a list of state effects to the working map only: an `Update`
stores the bytes, a `Delete` stores empty bytes without removing the key
(the working-map half of `update_state`). -/
def applyStateUpdates (state : StateMap) (state_updates : List StateUpdate) : StateMap :=
  state_updates.foldl
    (fun persisted u =>
      match u with
      | .Delete value_spec => insertState persisted value_spec []
      | .Update value_spec bytes => insertState persisted value_spec bytes)
    state

/-- The sequence of `Effects` the registered handler produces along a batch,
each invocation seeing the working map left by its predecessors. -/
def effectsTrace (rf : FnInvokableFunction) (self_address : ProtoAddress) :
    List ToFnInvocation → StateMap → List Effects
  | [], _ => []
  | invocation :: rest, persisted =>
      let eff := rf.function
        { state := persisted, self_address := self_address
        , caller_address := invocation.caller }
        (Message.new invocation.argument)
      eff :: effectsTrace rf self_address rest (applyStateUpdates persisted eff.state_updates)

/-- The working state map over which the `Context` of the `k`-th queued
invocation (0-based) is built, defined by stepping the loop. -/
def stateSeq (rf : FnInvokableFunction) (self_address : ProtoAddress) :
    List ToFnInvocation → StateMap → Nat → StateMap
  | _, persisted, 0 => persisted
  | [], persisted, _ + 1 => persisted
  | invocation :: rest, persisted, k + 1 =>
      let eff := rf.function
        { state := persisted, self_address := self_address
        , caller_address := invocation.caller }
        (Message.new invocation.argument)
      stateSeq rf self_address rest (applyStateUpdates persisted eff.state_updates) k

/-- All state effects of a batch, across invocations, in emission order. -/
def batchStateUpdates (rf : FnInvokableFunction) (self_address : ProtoAddress)
    (invocations : List ToFnInvocation) (persisted : StateMap) : List StateUpdate :=
  ((effectsTrace rf self_address invocations persisted).map Effects.state_updates).flatten

/-- Fold a list of updates into the coalesced map (the coalesced half of
`update_state`). -/
def coalesceSteps (coalesced : CoalescedStates) (state_updates : List StateUpdate) :
    CoalescedStates :=
  state_updates.foldl (fun c u => insertCoalesced c u.spec u) coalesced

/-- The last state effect a batch produced for a given spec key, if any. -/
def lastUpdateFor (s : ValueSpecBase) : List StateUpdate → Option StateUpdate
  | [] => none
  | u :: rest =>
      match lastUpdateFor s rest with
      | some v => some v
      | none => if u.spec = s then some u else none

/-- The serialized outgoing messages of one invocation's effects. -/
def outgoingOf (e : Effects) : List FromFnInvocation :=
  e.invocations.map
    (fun m => { target := m.1.into_proto, argument := to_typed_value m.2.1 m.2.2 })

/-- The serialized delayed-invocation entries of one invocation's effects:
all delayed sends first (emission order), then all cancellations (emission
order), exactly as the bridge appends them. -/
def delayedOf (e : Effects) : List FromFnDelayedInvocation :=
  e.delayed_invocations.map
    (fun d => { is_cancellation_request := false
              , target := some d.address.into_proto
              , delay_in_ms := (d.delay_ms : Int)
              , cancellation_token := d.cancellation_token
              , argument := some (to_typed_value d.typename d.bytes) })
  ++ e.cancelled_delayed_invocations.map
    (fun tok => { is_cancellation_request := true
                , target := none
                , delay_in_ms := 0
                , cancellation_token := tok
                , argument := none })

/-- The serialized egress records of one invocation's effects. -/
def egressOf (e : Effects) : List FromFnEgressMessage :=
  e.egress_messages.map
    (fun m => { egress_namespace := m.1.nspace
              , egress_type := m.1.name
              , argument := to_typed_value m.2.1 m.2.2 })

/-- The `InvocationResponse` assembled from a batch's effects trace and its
final coalesced state map. -/
def assembleResponse (trace : List Effects) (coalesced : CoalescedStates) :
    InvocationResponse :=
  { outgoing_messages := (trace.map outgoingOf).flatten
  , delayed_invocations := (trace.map delayedOf).flatten
  , outgoing_egresses := (trace.map egressOf).flatten
  , state_mutations := coalesced.map (fun kv => mutationOfUpdate kv.2) }

/-- Whether a bridge result is an `IncompleteInvocationContext`. -/
def resultIsIncomplete : Except InvocationError FromFunction → Bool
  | .ok (.incomplete_invocation_context _) => true
  | _ => false

deriving instance DecidableEq for Except

/-! ## Built-in codecs (`serialization.rs`)

Modelled from the spec: the `Serializable` impls in `serialization.rs`
delegate to the generated wrapper messages of the `statefun-proto` crate
(`BooleanWrapper`, `IntWrapper`, `LongWrapper`, `FloatWrapper`,
`DoubleWrapper`, `StringWrapper`), whose sources are not part of `src/`.
Per the spec's wire-format table each wrapper is a single-field proto3
message (field number 1; bool as varint, int/float as 32-bit fixed,
long/double as 64-bit fixed, string length-delimited), and proto3 omits a
field holding its default value. Byte buffers are little-endian as in
protobuf. Rust `String` payloads are modelled by their UTF-8 bytes, and
`f32`/`f64` values by their IEEE-754 bit patterns. -/

/-- LEB128 varint encoding, structured over a fuel argument so that it
computes by structural recursion; `fuel` bounds the value. -/
def varintEncodeAux : Nat → Nat → List Nat
  | 0, n => [n % 128]
  | fuel + 1, n =>
      if n < 128 then [n] else (n % 128 + 128) :: varintEncodeAux fuel (n / 128)

/-- LEB128 varint encoding of a natural number. -/
def varintEncode (n : Nat) : List Nat :=
  varintEncodeAux n n

/-- LEB128 varint decoding; returns the value and the remaining bytes. -/
def varintDecode : List Nat → Option (Nat × List Nat)
  | [] => none
  | b :: rest =>
      if b < 128 then some (b, rest)
      else
        match varintDecode rest with
        | some (m, r) => some (b - 128 + 128 * m, r)
        | none => none

/-- Little-endian encoding of a 32-bit word. -/
def fixed32Encode (n : Nat) : List Nat :=
  [n % 256, n / 256 % 256, n / 65536 % 256, n / 16777216 % 256]

/-- Little-endian decoding of a 32-bit word; returns the remaining bytes. -/
def fixed32Decode : List Nat → Option (Nat × List Nat)
  | b0 :: b1 :: b2 :: b3 :: rest =>
      some (b0 + 256 * b1 + 65536 * b2 + 16777216 * b3, rest)
  | _ => none

/-- Little-endian encoding of a 64-bit word. -/
def fixed64Encode (n : Nat) : List Nat :=
  [ n % 256, n / 256 % 256, n / 65536 % 256, n / 16777216 % 256
  , n / 4294967296 % 256, n / 1099511627776 % 256
  , n / 281474976710656 % 256, n / 72057594037927936 % 256 ]

/-- Little-endian decoding of a 64-bit word; returns the remaining bytes. -/
def fixed64Decode : List Nat → Option (Nat × List Nat)
  | b0 :: b1 :: b2 :: b3 :: b4 :: b5 :: b6 :: b7 :: rest =>
      some (b0 + 256 * b1 + 65536 * b2 + 16777216 * b3 + 4294967296 * b4
        + 1099511627776 * b5 + 281474976710656 * b6 + 72057594037927936 * b7, rest)
  | _ => none

/-- Two's-complement 32-bit image of a signed value. -/
def toU32 (v : Int) : Nat := (v % 4294967296).toNat

/-- Signed reading of a 32-bit word. -/
def fromU32 (n : Nat) : Int :=
  if n < 2147483648 then (n : Int) else (n : Int) - 4294967296

/-- Two's-complement 64-bit image of a signed value. -/
def toU64 (v : Int) : Nat := (v % 18446744073709551616).toNat

/-- Signed reading of a 64-bit word. -/
def fromU64 (n : Nat) : Int :=
  if n < 9223372036854775808 then (n : Int) else (n : Int) - 18446744073709551616

/-- `Serializable<bool>::serialize`: a `BooleanWrapper` on the wire; `false`
is the proto3 default and is omitted, `true` is field 1 varint 1 (tag 8). -/
def serialize_bool (b : Bool) : List Nat :=
  if b then [8, 1] else []

/-- `Serializable<bool>::deserialize`: parse a `BooleanWrapper`; an empty
buffer is the default `false`, any nonzero varint reads as `true`. -/
def deserialize_bool : List Nat → Except String Bool
  | [] => .ok false
  | 8 :: rest =>
      match varintDecode rest with
      | some (n, []) => .ok (decide (n ≠ 0))
      | _ => .error "invalid BooleanWrapper"
  | _ => .error "invalid BooleanWrapper"

/-- `Serializable<i32>::serialize`: an `IntWrapper` (sfixed32 field 1,
tag 13); zero is omitted. -/
def serialize_i32 (v : Int) : List Nat :=
  if v = 0 then [] else 13 :: fixed32Encode (toU32 v)

/-- `Serializable<i32>::deserialize`. -/
def deserialize_i32 : List Nat → Except String Int
  | [] => .ok 0
  | 13 :: rest =>
      match fixed32Decode rest with
      | some (n, []) => .ok (fromU32 n)
      | _ => .error "invalid IntWrapper"
  | _ => .error "invalid IntWrapper"

/-- `Serializable<i64>::serialize`: a `LongWrapper` (sfixed64 field 1,
tag 9); zero is omitted. -/
def serialize_i64 (v : Int) : List Nat :=
  if v = 0 then [] else 9 :: fixed64Encode (toU64 v)

/-- `Serializable<i64>::deserialize`. -/
def deserialize_i64 : List Nat → Except String Int
  | [] => .ok 0
  | 9 :: rest =>
      match fixed64Decode rest with
      | some (n, []) => .ok (fromU64 n)
      | _ => .error "invalid LongWrapper"
  | _ => .error "invalid LongWrapper"

/-- NaN test on an IEEE-754 single bit pattern: exponent all ones, nonzero
mantissa. -/
def f32IsNaN (p : Nat) : Bool :=
  (p / 8388608 % 256 == 255) && (p % 8388608 != 0)

/-- Zero test on an IEEE-754 single bit pattern: plus or minus zero. -/
def f32IsZero (p : Nat) : Bool :=
  (p == 0) || (p == 2147483648)

/-- Rust `f32` equality (`==`) on bit patterns: false when either side is a
NaN, true for identical bits or for any two zeros. -/
def f32ValEq (a b : Nat) : Bool :=
  (!f32IsNaN a && !f32IsNaN b) && ((a == b) || (f32IsZero a && f32IsZero b))

/-- `Serializable<f32>::serialize`: a `FloatWrapper` (float field 1,
tag 13); a zero value (either sign) is the proto3 default and is omitted. -/
def serialize_f32 (p : Nat) : List Nat :=
  if f32IsZero p then [] else 13 :: fixed32Encode p

/-- `Serializable<f32>::deserialize`. -/
def deserialize_f32 : List Nat → Except String Nat
  | [] => .ok 0
  | 13 :: rest =>
      match fixed32Decode rest with
      | some (n, []) => .ok n
      | _ => .error "invalid FloatWrapper"
  | _ => .error "invalid FloatWrapper"

/-- NaN test on an IEEE-754 double bit pattern. -/
def f64IsNaN (p : Nat) : Bool :=
  (p / 4503599627370496 % 2048 == 2047) && (p % 4503599627370496 != 0)

/-- Zero test on an IEEE-754 double bit pattern. -/
def f64IsZero (p : Nat) : Bool :=
  (p == 0) || (p == 9223372036854775808)

/-- Rust `f64` equality (`==`) on bit patterns. -/
def f64ValEq (a b : Nat) : Bool :=
  (!f64IsNaN a && !f64IsNaN b) && ((a == b) || (f64IsZero a && f64IsZero b))

/-- `Serializable<f64>::serialize`: a `DoubleWrapper` (double field 1,
tag 9); zeros are omitted. -/
def serialize_f64 (p : Nat) : List Nat :=
  if f64IsZero p then [] else 9 :: fixed64Encode p

/-- `Serializable<f64>::deserialize`. -/
def deserialize_f64 : List Nat → Except String Nat
  | [] => .ok 0
  | 9 :: rest =>
      match fixed64Decode rest with
      | some (n, []) => .ok n
      | _ => .error "invalid DoubleWrapper"
  | _ => .error "invalid DoubleWrapper"

/-- `Serializable<String>::serialize`: a `StringWrapper` (length-delimited
field 1, tag 10); the empty string is omitted. The string is represented by
its UTF-8 bytes. -/
def serialize_string (s : List Nat) : List Nat :=
  if s = [] then [] else 10 :: (varintEncode s.length ++ s)

/-- `Serializable<String>::deserialize`. -/
def deserialize_string : List Nat → Except String (List Nat)
  | [] => .ok []
  | 10 :: rest =>
      match varintDecode rest with
      | some (len, r) => if r.length = len then .ok r else .error "invalid StringWrapper"
      | none => .error "invalid StringWrapper"
  | _ => .error "invalid StringWrapper"

/-! ## Concrete instances

Small concrete registries, batches and values used to evaluate the embedded
engine at specific inputs. -/

/-- A concrete function type. -/
def exFt : FunctionType := { nspace := "greeter.fns", name := "user" }

/-- The proto address of the concrete batch target (decodes to `exFt`). -/
def exTarget : ProtoAddress := { nspace := "greeter.fns", typ := "user", id := "alice" }

/-- An all-empty caller address (ingress-originated message). -/
def exIngressCaller : ProtoAddress := { nspace := "", typ := "", id := "" }

/-- A declared spec with an after-write TTL of 5 seconds. -/
def seenCountSpec : ValueSpecBase :=
  { name := "seen_count", typename := "io.statefun.types/int"
  , expiration := { expiration_type := some .AfterWrite, time_to_live_ms := 5000 } }

/-- A declared spec that never expires. -/
def lastSeenSpec : ValueSpecBase :=
  { name := "last_seen", typename := "io.statefun.types/long"
  , expiration := Expiration.never }

/-- A declared spec with never-expiring int state, used by the batch runs. -/
def counterSpec : ValueSpecBase :=
  { name := "counter", typename := "io.statefun.types/int"
  , expiration := Expiration.never }

/-- A handler that does nothing. -/
def noopHandler : Context → Message → Effects := fun _ _ => Effects.new

/-- A serializable value whose encoding is the `IntWrapper` of 1. -/
def intOneValue : SerializableValue :=
  { typename := "io.statefun.types/int", serialize := fun _ => .ok (serialize_i32 1) }

/-- A serializable value whose encoding is the `StringWrapper` of "hi". -/
def strHiValue : SerializableValue :=
  { typename := "io.statefun.types/string"
  , serialize := fun _ => .ok (serialize_string [104, 105]) }

/-- A queued invocation carrying an ingress caller and an opaque payload. -/
def exInvocation : ToFnInvocation :=
  { caller := exIngressCaller
  , argument := { typename := "com.example/user-login", has_value := true, value := [1, 2, 3] } }

/-- Registry declaring the two specs of spec scenario S1 behind `exFt`. -/
def c1Registry : FunctionRegistry :=
  FunctionRegistry.register_fn FunctionRegistry.new exFt [seenCountSpec, lastSeenSpec]
    noopHandler

/-- The registered entry of `c1Registry` at `exFt`. -/
def c1Rf : FnInvokableFunction :=
  { value_specs := [seenCountSpec, lastSeenSpec], function := noopHandler }

/-- A batch for `exFt` with an empty snapshot and one queued invocation. -/
def c1ToFn : ToFunction :=
  { invocation := { target := exTarget, state := [], invocations := [exInvocation] } }

/-- A batch for `exFt` with an empty snapshot and no queued invocations. -/
def emptyBatchToFn : ToFunction :=
  { invocation := { target := exTarget, state := [], invocations := [] } }

/-- A handler that writes `counter := IntWrapper(1)` on every call. -/
def c2Handler : Context → Message → Effects := fun _ _ =>
  match Effects.updateState Effects.new counterSpec intOneValue with
  | .ok e => e
  | .error _ => Effects.new

/-- Registry with `c2Handler` behind `exFt`, declaring `counterSpec`. -/
def c2Registry : FunctionRegistry :=
  FunctionRegistry.register_fn FunctionRegistry.new exFt [counterSpec] c2Handler

/-- The registered entry of `c2Registry` at `exFt`. -/
def c2Rf : FnInvokableFunction :=
  { value_specs := [counterSpec], function := c2Handler }

/-- A two-invocation batch whose snapshot has an allocated-but-empty
`counter` cell. -/
def c2ToFn : ToFunction :=
  { invocation :=
    { target := exTarget
    , state := [ { state_name := "counter"
                 , state_value := { typename := "io.statefun.types/int"
                                  , has_value := false, value := [] } } ]
    , invocations := [exInvocation, exInvocation] } }

/-- A handler that updates `counter` and then deletes it, in one invocation. -/
def c3Handler : Context → Message → Effects := fun _ _ =>
  match Effects.updateState Effects.new counterSpec intOneValue with
  | .ok e => Effects.deleteState e counterSpec
  | .error _ => Effects.new

/-- Registry with `c3Handler` behind `exFt`. -/
def c3Registry : FunctionRegistry :=
  FunctionRegistry.register_fn FunctionRegistry.new exFt [counterSpec] c3Handler

/-- The registered entry of `c3Registry` at `exFt`. -/
def c3Rf : FnInvokableFunction :=
  { value_specs := [counterSpec], function := c3Handler }

/-- A one-invocation batch with the `counter` cell allocated and holding 1. -/
def c3ToFn : ToFunction :=
  { invocation :=
    { target := exTarget
    , state := [ { state_name := "counter"
                 , state_value := { typename := "io.statefun.types/int"
                                  , has_value := true, value := [13, 1, 0, 0, 0] } } ]
    , invocations := [exInvocation] } }

/-- A snapshot cell as the coordinator sends it before the first successful
write: same name as `counterSpec` but a blank typename. -/
def blankTypenameCell : ValueSpecBase :=
  { name := "counter", typename := "", expiration := Expiration.never }

/-- A working map holding only the blank-typename `counter` cell with a
stored value. -/
def blankCellMap : StateMap := [(blankTypenameCell, [13, 1, 0, 0, 0])]

/-- The target address of the delayed send in the cancellation scenario. -/
def delayedTargetAddress : Address :=
  { function_type := { nspace := "greeter.fns", name := "delayed" }, id := "bob" }

/-- A handler that emits a cancellation for token `tok-1` first, then a
delayed send carrying the same token. -/
def c6Handler : Context → Message → Effects := fun _ _ =>
  match Effects.send_after (Effects.cancel_delayed_message Effects.new "tok-1")
      delayedTargetAddress 3000 "tok-1" strHiValue with
  | .ok e => e
  | .error _ => Effects.new

/-- Registry with `c6Handler` behind `exFt` (no declared state). -/
def c6Registry : FunctionRegistry :=
  FunctionRegistry.register_fn FunctionRegistry.new exFt [] c6Handler

/-- The registered entry of `c6Registry` at `exFt`. -/
def c6Rf : FnInvokableFunction :=
  { value_specs := [], function := c6Handler }

/-- A one-invocation batch for the cancellation-order scenario. -/
def c6ToFn : ToFunction :=
  { invocation := { target := exTarget, state := [], invocations := [exInvocation] } }

/-- An incoming message whose payload typename is `user/foo`. -/
def fooMessage : Message :=
  Message.new { typename := "user/foo", has_value := true, value := [1] }

/-- A trivial deserializer for `Message.get` scenarios. -/
def natDeser : String → List Nat → Except String Nat := fun _ _ => .ok 0

/-- A double-quote character as a one-character string. -/
def dq : String := String.mk [Char.ofNat 34]

/-! ## Map lemmas -/

theorem lookupState_insertState (m : StateMap) (k : ValueSpecBase) (v : List Nat)
    (k' : ValueSpecBase) :
    lookupState (insertState m k v) k' = if k' = k then some v else lookupState m k' := by
  induction m with
  | nil =>
      simp only [insertState, lookupState]
      split_ifs <;> first | rfl | simp_all
  | cons hd tl ih =>
      obtain ⟨k0, v0⟩ := hd
      simp only [insertState]
      by_cases h0 : k0 = k
      · subst h0
        simp only [if_pos rfl, lookupState]
        split_ifs <;> first | rfl | simp_all
      · simp only [if_neg h0, lookupState, ih]
        split_ifs <;> first | rfl | simp_all

theorem lookupCoalesced_insertCoalesced (m : CoalescedStates) (k : ValueSpecBase)
    (v : StateUpdate) (k' : ValueSpecBase) :
    lookupCoalesced (insertCoalesced m k v) k' =
      if k' = k then some v else lookupCoalesced m k' := by
  induction m with
  | nil =>
      simp only [insertCoalesced, lookupCoalesced]
      split_ifs <;> first | rfl | simp_all
  | cons hd tl ih =>
      obtain ⟨k0, v0⟩ := hd
      simp only [insertCoalesced]
      by_cases h0 : k0 = k
      · subst h0
        simp only [if_pos rfl, lookupCoalesced]
        split_ifs <;> first | rfl | simp_all
      · simp only [if_neg h0, lookupCoalesced, ih]
        split_ifs <;> first | rfl | simp_all

/-- The name-presence scan of the missing-state check survives a map
insertion: an insertion never removes a key. -/
theorem any_name_insertState (m : StateMap) (k : ValueSpecBase) (v : List Nat)
    (n : String) (h : m.any (fun p => n == p.1.name) = true) :
    (insertState m k v).any (fun p => n == p.1.name) = true := by
  induction m with
  | nil => simp at h
  | cons hd tl ih =>
      obtain ⟨k0, v0⟩ := hd
      by_cases h0 : k0 = k
      · subst h0
        simp only [insertState, if_pos rfl]
        simpa using h
      · simp only [insertState, if_neg h0]
        simp only [List.any_cons, Bool.or_eq_true] at h ⊢
        rcases h with h | h
        · exact Or.inl h
        · exact Or.inr (ih h)

/-- A batch with no missing state keeps having no missing state after any
sequence of state effects is applied: updates and deletes only insert. -/
theorem missingStatesOf_applyStateUpdates (specs : List ValueSpecBase)
    (us : List StateUpdate) (m : StateMap)
    (h : missingStatesOf specs m = []) :
    missingStatesOf specs (applyStateUpdates m us) = [] := by
  induction us generalizing m with
  | nil => simpa [applyStateUpdates] using h
  | cons u rest ih =>
      have step : ∀ k v, missingStatesOf specs (insertState m k v) = [] := by
        intro k v
        simp only [missingStatesOf, List.filter_eq_nil_iff] at h ⊢
        intro vs hvs
        have hname := h vs hvs
        rcases hmn : m.any (fun p => vs.name == p.1.name) with _ | _
        · exact absurd (by simp [hmn]) hname
        · have hins := any_name_insertState m k v vs.name hmn
          simp [hins]
      cases u with
      | Delete s =>
          have := ih (m := insertState m s []) (step s [])
          simpa [applyStateUpdates] using this
      | Update s bytes =>
          have := ih (m := insertState m s bytes) (step s bytes)
          simpa [applyStateUpdates] using this

/-- When a handler is registered for the target and no declared state is
missing, `FunctionRegistry::invoke` runs the handler. -/
theorem registry_invoke_ok (reg : FunctionRegistry) (rf : FnInvokableFunction)
    (ft : FunctionType) (ctx : Context) (msg : Message)
    (hreg : reg ft = some rf)
    (hmiss : missingStatesOf rf.value_specs ctx.state = []) :
    FunctionRegistry.invoke reg ft ctx msg = .ok (rf.function ctx msg) := by
  simp [FunctionRegistry.invoke, hreg, FnInvokableFunction.invoke, hmiss]

/-- The two halves of `update_state` are `applyStateUpdates` on the working
map and `coalesceSteps` on the coalesced map. -/
theorem update_state_eq (p : StateMap) (c : CoalescedStates) (us : List StateUpdate) :
    update_state p c us = (applyStateUpdates p us, coalesceSteps c us) := by
  induction us generalizing p c with
  | nil => simp [update_state, applyStateUpdates, coalesceSteps]
  | cons u rest ih =>
      cases u with
      | Delete s =>
          simpa [update_state, applyStateUpdates, coalesceSteps, update_state_one,
            StateUpdate.spec] using ih (p := insertState p s [])
            (c := insertCoalesced c s (.Delete s))
      | Update s bytes =>
          simpa [update_state, applyStateUpdates, coalesceSteps, update_state_one,
            StateUpdate.spec] using ih (p := insertState p s bytes)
            (c := insertCoalesced c s (.Update s bytes))

/-- Characterization of the invocation loop on a fully-present, registered
batch: the run succeeds and the response is the accumulator's contents
followed by the per-invocation serialized effects in batch order, with the
state mutations of the final coalesced map appended last. -/
theorem invokeLoop_characterization (reg : FunctionRegistry) (self_address : ProtoAddress)
    (rf : FnInvokableFunction)
    (hreg : reg (Address.from_proto self_address).function_type = some rf) :
    ∀ (invs : List ToFnInvocation) (persisted : StateMap) (coalesced : CoalescedStates)
      (resp : InvocationResponse),
      missingStatesOf rf.value_specs persisted = [] →
      invokeLoop reg self_address invs persisted coalesced resp =
        .ok (.invocation_result
          { outgoing_messages := resp.outgoing_messages ++
              ((effectsTrace rf self_address invs persisted).map outgoingOf).flatten
          , delayed_invocations := resp.delayed_invocations ++
              ((effectsTrace rf self_address invs persisted).map delayedOf).flatten
          , outgoing_egresses := resp.outgoing_egresses ++
              ((effectsTrace rf self_address invs persisted).map egressOf).flatten
          , state_mutations := resp.state_mutations ++
              (coalesceSteps coalesced (batchStateUpdates rf self_address invs persisted)).map
                (fun kv => mutationOfUpdate kv.2) }) := by
  intro invs
  induction invs with
  | nil =>
      intro persisted coalesced resp hmiss
      simp [invokeLoop, serialize_state_updates, effectsTrace, batchStateUpdates,
        coalesceSteps, List.map_map]
  | cons inv rest ih =>
      intro persisted coalesced resp hmiss
      have hinvoke := registry_invoke_ok reg rf
        (Address.from_proto self_address).function_type
        { state := persisted, self_address := self_address, caller_address := inv.caller }
        (Message.new inv.argument) hreg hmiss
      simp only [invokeLoop, hinvoke]
      rw [update_state_eq]
      rw [ih (applyStateUpdates persisted
          (rf.function
            { state := persisted, self_address := self_address
            , caller_address := inv.caller } (Message.new inv.argument)).state_updates)
        (coalesceSteps coalesced
          (rf.function
            { state := persisted, self_address := self_address
            , caller_address := inv.caller } (Message.new inv.argument)).state_updates)
        _
        (missingStatesOf_applyStateUpdates rf.value_specs _ persisted hmiss)]
      simp [serialize_invocation_messages, serialize_delayed_invocation_messages,
        serialize_cancelled_delayed_messages, serialize_egress_messages,
        effectsTrace, batchStateUpdates, coalesceSteps, List.foldl_append,
        outgoingOf, delayedOf, egressOf, List.append_assoc]

/-- `applyStateUpdates` distributes over list append. -/
theorem applyStateUpdates_append (m : StateMap) (a b : List StateUpdate) :
    applyStateUpdates m (a ++ b) = applyStateUpdates (applyStateUpdates m a) b := by
  simp [applyStateUpdates, List.foldl_append]

/-- Closed form of the loop's state sequence: the working map handed to the
`k`-th invocation is the snapshot with the state effects of invocations
`0..k-1` (in emission order) applied. -/
theorem stateSeq_closed_form (rf : FnInvokableFunction) (self_address : ProtoAddress) :
    ∀ (invs : List ToFnInvocation) (persisted : StateMap) (k : Nat),
      stateSeq rf self_address invs persisted k =
        applyStateUpdates persisted
          (((effectsTrace rf self_address invs persisted).take k).map
            Effects.state_updates).flatten := by
  intro invs
  induction invs with
  | nil =>
      intro persisted k
      cases k <;> simp [stateSeq, effectsTrace, applyStateUpdates]
  | cons inv rest ih =>
      intro persisted k
      cases k with
      | zero => simp [stateSeq, applyStateUpdates]
      | succ k =>
          simp only [stateSeq, effectsTrace, List.take_succ_cons, List.map_cons,
            List.flatten_cons, applyStateUpdates_append]
          exact ih _ k

/-- The `k`-th entry of the effects trace is the handler applied to the
`Context` built over the `k`-th working map and the `k`-th caller and
argument. -/
theorem effectsTrace_get (rf : FnInvokableFunction) (self_address : ProtoAddress) :
    ∀ (invs : List ToFnInvocation) (persisted : StateMap) (k : Nat)
      (inv : ToFnInvocation), invs.get? k = some inv →
      (effectsTrace rf self_address invs persisted).get? k =
        some (rf.function
          { state := stateSeq rf self_address invs persisted k
          , self_address := self_address
          , caller_address := inv.caller }
          (Message.new inv.argument)) := by
  intro invs
  induction invs with
  | nil => intro persisted k inv h; simp at h
  | cons hd rest ih =>
      intro persisted k inv h
      cases k with
      | zero =>
          simp only [List.get?_cons_zero, Option.some.injEq] at h
          subst h
          simp [effectsTrace, stateSeq]
      | succ k =>
          simp only [List.get?_cons_succ] at h
          simpa [effectsTrace, stateSeq] using ih _ k inv h

/-- Looking up a spec in the fold of a batch's updates over the coalesced
map returns the last update for that spec, falling back to the prior map. -/
theorem lookupCoalesced_coalesceSteps (us : List StateUpdate) :
    ∀ (c : CoalescedStates) (s : ValueSpecBase),
      lookupCoalesced (coalesceSteps c us) s =
        match lastUpdateFor s us with
        | some u => some u
        | none => lookupCoalesced c s := by
  induction us with
  | nil => intro c s; simp [coalesceSteps, lastUpdateFor]
  | cons u rest ih =>
      intro c s
      have hstep : coalesceSteps c (u :: rest) =
          coalesceSteps (insertCoalesced c u.spec u) rest := by
        simp [coalesceSteps]
      rw [hstep, ih]
      simp only [lastUpdateFor]
      cases lastUpdateFor s rest with
      | some v => simp
      | none =>
          simp only [lookupCoalesced_insertCoalesced]
          by_cases h : u.spec = s
          · simp [h]
          · have hne : ¬s = u.spec := fun hh => h hh.symm
            simp [h, hne]

/-- The key list of the coalesced map after an insertion: unchanged when the
key was present, the key appended otherwise. -/
theorem keys_insertCoalesced (c : CoalescedStates) (k : ValueSpecBase) (v : StateUpdate) :
    (insertCoalesced c k v).map Prod.fst =
      if k ∈ c.map Prod.fst then c.map Prod.fst else c.map Prod.fst ++ [k] := by
  induction c with
  | nil => simp [insertCoalesced]
  | cons hd tl ih =>
      obtain ⟨k0, v0⟩ := hd
      by_cases h0 : k0 = k
      · subst h0
        simp [insertCoalesced]
      · have hkk0 : ¬k = k0 := fun hh => h0 hh.symm
        simp only [insertCoalesced, if_neg h0, List.map_cons, ih, List.mem_cons, hkk0,
          false_or]
        by_cases hm : k ∈ tl.map Prod.fst
        · simp [hm]
        · simp [hm]

/-- The keys of the coalesced map stay pairwise distinct under insertion. -/
theorem insertCoalesced_keys_nodup (c : CoalescedStates) (k : ValueSpecBase)
    (v : StateUpdate) (h : (c.map Prod.fst).Nodup) :
    ((insertCoalesced c k v).map Prod.fst).Nodup := by
  rw [keys_insertCoalesced]
  by_cases hm : k ∈ c.map Prod.fst
  · simpa [hm] using h
  · simp only [if_neg hm]
    rw [List.nodup_append]
    refine ⟨h, List.nodup_singleton k, ?_⟩
    intro a ha hb
    rw [List.mem_singleton] at hb
    subst hb
    exact hm ha

/-- The keys of the coalesced map built by a batch are pairwise distinct. -/
theorem coalesceSteps_keys_nodup (us : List StateUpdate) :
    ∀ (c : CoalescedStates), (c.map Prod.fst).Nodup →
      ((coalesceSteps c us).map Prod.fst).Nodup := by
  induction us with
  | nil => intro c h; simpa [coalesceSteps] using h
  | cons u rest ih =>
      intro c h
      have hstep : coalesceSteps c (u :: rest) =
          coalesceSteps (insertCoalesced c u.spec u) rest := by
        simp [coalesceSteps]
      rw [hstep]
      exact ih _ (insertCoalesced_keys_nodup c u.spec u h)

/-- When a handler is registered but some declared state is missing,
`FunctionRegistry::invoke` reports the missing specs. -/
theorem registry_invoke_missing (reg : FunctionRegistry) (rf : FnInvokableFunction)
    (ft : FunctionType) (ctx : Context) (msg : Message)
    (hreg : reg ft = some rf)
    (hmiss : missingStatesOf rf.value_specs ctx.state ≠ []) :
    FunctionRegistry.invoke reg ft ctx msg =
      .error (.MissingStates { states := missingStatesOf rf.value_specs ctx.state }) := by
  have hne : (missingStatesOf rf.value_specs ctx.state).isEmpty = false := by
    cases h : missingStatesOf rf.value_specs ctx.state with
    | nil => exact absurd h hmiss
    | cons a l => rfl
  simp [FunctionRegistry.invoke, hreg, FnInvokableFunction.invoke, hne]

/-- `Context::get_state` is the map lookup post-composed with the spec's
deserializer at the spec's typename. -/
theorem get_state_eq_lookup {T : Type} (ctx : Context) (value_spec : ValueSpecBase)
    (deserializer : String → List Nat → T) :
    ctx.get_state value_spec deserializer =
      (lookupState ctx.state value_spec).map (deserializer value_spec.typename) := by
  cases h : lookupState ctx.state value_spec <;> simp [Context.get_state, h]

/-- Decoding a fuelled varint encoding recovers the value and the trailing
bytes, provided the fuel bounds the value. -/
theorem varintDecodeAux_encode : ∀ (fuel n : Nat), n ≤ fuel → ∀ r : List Nat,
    varintDecode (varintEncodeAux fuel n ++ r) = some (n, r) := by
  intro fuel
  induction fuel with
  | zero =>
      intro n hn r
      have h0 : n = 0 := Nat.le_zero.mp hn
      subst h0
      simp [varintEncodeAux, varintDecode]
  | succ fuel ih =>
      intro n hn r
      by_cases h : n < 128
      · simp [varintEncodeAux, h, varintDecode]
      · have hge : ¬(n % 128 + 128 < 128) := by omega
        have hrec : n / 128 ≤ fuel := by omega
        simp only [varintEncodeAux, if_neg h, List.cons_append, varintDecode, if_neg hge]
        rw [ih (n / 128) hrec r]
        simp
        omega

/-- Decoding a varint encoding recovers the value and the trailing bytes. -/
theorem varintDecode_encode (n : Nat) : ∀ r : List Nat,
    varintDecode (varintEncode n ++ r) = some (n, r) := by
  intro r
  exact varintDecodeAux_encode n n (Nat.le_refl n) r

/-- Decoding a 32-bit little-endian encoding recovers the value. -/
theorem fixed32Decode_encode (n : Nat) (h : n < 4294967296) (r : List Nat) :
    fixed32Decode (fixed32Encode n ++ r) = some (n, r) := by
  simp only [fixed32Encode, List.cons_append, List.nil_append, fixed32Decode,
    Option.some.injEq, Prod.mk.injEq, and_true]
  omega

/-- Decoding a 64-bit little-endian encoding recovers the value. -/
theorem fixed64Decode_encode (n : Nat) (h : n < 18446744073709551616) (r : List Nat) :
    fixed64Decode (fixed64Encode n ++ r) = some (n, r) := by
  simp only [fixed64Encode, List.cons_append, List.nil_append, fixed64Decode,
    Option.some.injEq, Prod.mk.injEq, and_true]
  omega

/-- The 32-bit two's-complement image is in range. -/
theorem toU32_lt (v : Int) : toU32 v < 4294967296 := by
  unfold toU32
  omega

/-- The 64-bit two's-complement image is in range. -/
theorem toU64_lt (v : Int) : toU64 v < 18446744073709551616 := by
  unfold toU64
  omega

/-- Signed reading inverts the two's-complement image on in-range values. -/
theorem fromU32_toU32 (v : Int) (h1 : -2147483648 ≤ v) (h2 : v < 2147483648) :
    fromU32 (toU32 v) = v := by
  unfold fromU32 toU32
  split_ifs <;> omega

/-- Signed reading inverts the two's-complement image on in-range values. -/
theorem fromU64_toU64 (v : Int) (h1 : -9223372036854775808 ≤ v)
    (h2 : v < 9223372036854775808) :
    fromU64 (toU64 v) = v := by
  unfold fromU64 toU64
  split_ifs <;> omega

/-- A lookup misses when no entry has the looked-up full key. -/
theorem lookupState_eq_none (m : StateMap) (key : ValueSpecBase)
    (h : ∀ p ∈ m, p.1 ≠ key) : lookupState m key = none := by
  induction m with
  | nil => rfl
  | cons hd tl ih =>
      obtain ⟨k, v⟩ := hd
      have hk : k ≠ key := h (k, v) (by simp)
      simp only [lookupState, if_neg hk]
      exact ih (fun p hp => h p (by simp [hp]))

/-! ## Claim theorems -/

/-- C10: registering a second handler under an already-registered
`FunctionType` does not fail and silently replaces the previous handler and
its declared value specs: the registry entry is the second registration, and
every subsequent `invoke` for that function type dispatches to the most
recently registered handler. -/
theorem c10_register_fn_replaces (reg : FunctionRegistry) (function_type : FunctionType)
    (specs1 : List ValueSpecBase) (f1 : Context → Message → Effects)
    (specs2 : List ValueSpecBase) (f2 : Context → Message → Effects) :
    ((reg.register_fn function_type specs1 f1).register_fn function_type specs2 f2)
        function_type = some { value_specs := specs2, function := f2 }
    ∧ ∀ (ctx : Context) (msg : Message),
        FunctionRegistry.invoke
          ((reg.register_fn function_type specs1 f1).register_fn function_type specs2 f2)
          function_type ctx msg =
        FnInvokableFunction.invoke { value_specs := specs2, function := f2 } ctx msg := by
  constructor
  · simp [FunctionRegistry.register_fn]
  · intro ctx msg
    simp [FunctionRegistry.invoke, FunctionRegistry.register_fn]

/-- C8 (amended): when the payload typename of a message differs from the
typename of the requested type, `Message::get` returns the error built with
Rust `{:?}` formatting — both typenames appear wrapped in double quotes —
and when the typenames agree it returns the result of deserializing the
payload bytes. -/
theorem c8_incompatible_types_error {T : Type} (m : Message) (expected_typename : String)
    (deser : String → List Nat → Except String T) :
    (m.typed_value.typename ≠ expected_typename →
      m.get expected_typename deser =
        .error ("Incompatible types. Expected: " ++ rustDebugString expected_typename
          ++ " Payload: " ++ rustDebugString m.typed_value.typename))
    ∧ (m.typed_value.typename = expected_typename →
      m.get expected_typename deser = deser m.typed_value.typename m.typed_value.value) := by
  constructor
  · intro h
    simp [Message.get, Message.is, h]
  · intro h
    simp [Message.get, Message.is, h]

/-- C8 counterexample: on the spec's own scenario S6 (payload `user/foo`
read as `user/bar`) the error text carries the typenames in Rust debug
quotes, so it is not the unquoted string the claim demands. -/
theorem c8_error_text_counterexample :
    Message.get fooMessage ("user/bar") natDeser =
      .error ("Incompatible types. Expected: " ++ dq ++ "user/bar" ++ dq
        ++ " Payload: " ++ dq ++ "user/foo" ++ dq)
    ∧ ("Incompatible types. Expected: " ++ dq ++ "user/bar" ++ dq
        ++ " Payload: " ++ dq ++ "user/foo" ++ dq) ≠
      "Incompatible types. Expected: user/bar Payload: user/foo" := by
  refine ⟨by decide, by decide⟩

/-- C8 witness: the amended theorem applied at scenario S6. -/
theorem c8_incompatible_types_error_witness :
    fooMessage.typed_value.typename ≠ "user/bar"
    ∧ Message.get fooMessage ("user/bar") natDeser =
        .error ("Incompatible types. Expected: " ++ rustDebugString ("user/bar")
          ++ " Payload: " ++ rustDebugString ("user/foo")) :=
  ⟨by decide, (c8_incompatible_types_error fooMessage ("user/bar") natDeser).1 (by decide)⟩

/-- C5 (amended): `Context::get_state` is keyed on the full
(name, typename, expiration) triple, not the name alone: a map whose entries
all differ from the spec's key — for example a snapshot cell with a blank or
different typename — yields `None`, while a full-key hit is found and
decoded; only the registry's missing-state check is keyed on the name, so a
same-named cell still counts as present for the state-presence protocol. -/
theorem c5_lookup_full_key {T : Type} (m : StateMap) (value_spec : ValueSpecBase)
    (deserializer : String → List Nat → T) (a1 a2 : ProtoAddress) :
    ((∀ p ∈ m, p.1 ≠ value_spec) →
      Context.get_state { state := m, self_address := a1, caller_address := a2 }
        value_spec deserializer = none)
    ∧ (∀ bytes, lookupState m value_spec = some bytes →
        Context.get_state { state := m, self_address := a1, caller_address := a2 }
          value_spec deserializer = some (deserializer value_spec.typename bytes))
    ∧ (∀ (cell_spec : ValueSpecBase) (cell_bytes : List Nat),
        cell_spec.name = value_spec.name →
        missingStatesOf [value_spec] ((cell_spec, cell_bytes) :: m) = []) := by
  refine ⟨?_, ?_, ?_⟩
  · intro h
    simp [Context.get_state, lookupState_eq_none m value_spec h]
  · intro bytes h
    simp [Context.get_state, h]
  · intro cell_spec cell_bytes hname
    simp [missingStatesOf, hname]

/-- C5 counterexample: a snapshot cell named `counter` with a blank
typename holds a value, yet `get_state` with the declared `counter` spec
(typename `io.statefun.types/int`) does not find it and returns `None` —
the lookup is not keyed on the name only. -/
theorem c5_blank_typename_counterexample :
    blankTypenameCell.name = counterSpec.name
    ∧ lookupState blankCellMap blankTypenameCell = some [13, 1, 0, 0, 0]
    ∧ Context.get_state
        { state := blankCellMap, self_address := exTarget, caller_address := exTarget }
        counterSpec (fun _ bs => deserialize_i32 bs) = none := by
  refine ⟨by decide, by decide, by decide⟩

/-- C5 witness: the amended theorem applied to the blank-typename map. -/
theorem c5_lookup_full_key_witness :
    (∀ p ∈ blankCellMap, p.1 ≠ counterSpec)
    ∧ Context.get_state
        { state := blankCellMap, self_address := exTarget, caller_address := exTarget }
        counterSpec (fun _ bs => deserialize_i32 bs) = none :=
  ⟨by decide,
   (c5_lookup_full_key blankCellMap counterSpec (fun _ bs => deserialize_i32 bs)
     exTarget exTarget).1 (by decide)⟩

/-- C4: after a `Delete` of `counter` is applied by `update_state`, the cell
stays in the working map as allocated-empty — so the missing-state check
still passes and no `IncompleteInvocationContext` is triggered — but
`Context::get_state` of the deleted cell returns `Some(decode(empty))`
(here `Some(Ok 0)`), not `None` as the spec requires. -/
theorem c4_delete_reads_allocated_empty :
    (update_state [(counterSpec, [13, 1, 0, 0, 0])] [] [.Delete counterSpec]).1 =
      [(counterSpec, [])]
    ∧ Context.get_state
        { state := (update_state [(counterSpec, [13, 1, 0, 0, 0])] []
            [.Delete counterSpec]).1
        , self_address := exTarget, caller_address := exTarget }
        counterSpec (fun _ bs => deserialize_i32 bs) = some (.ok 0)
    ∧ missingStatesOf [counterSpec]
        (update_state [(counterSpec, [13, 1, 0, 0, 0])] [] [.Delete counterSpec]).1 = [] := by
  refine ⟨by decide, by decide, by decide⟩

/-- C7 (amended): a batch with at least one queued invocation whose target
function type has no registered handler makes `invoke_from_proto` return
the typed `FunctionNotFound` error rather than any successful
`FromFunction`. -/
theorem c7_function_not_found (reg : FunctionRegistry) (to_function : ToFunction)
    (hinvs : to_function.invocation.invocations ≠ [])
    (hreg : reg (Address.from_proto to_function.invocation.target).function_type = none) :
    invoke_from_proto reg to_function =
      .error (.FunctionNotFound
        (Address.from_proto to_function.invocation.target).function_type) := by
  obtain ⟨inv, rest, hcons⟩ : ∃ i r, to_function.invocation.invocations = i :: r := by
    cases h : to_function.invocation.invocations with
    | nil => exact absurd h hinvs
    | cons i r => exact ⟨i, r, rfl⟩
  simp [invoke_from_proto, hcons, invokeLoop, FunctionRegistry.invoke, hreg]

/-- C7 counterexample: with an unregistered target but zero queued
invocations the bridge never performs the lookup and returns an empty
`InvocationResponse` instead of the `FunctionNotFound` error the claim
demands for every such batch. -/
theorem c7_zero_invocations_counterexample :
    FunctionRegistry.new (Address.from_proto emptyBatchToFn.invocation.target).function_type
      = none
    ∧ invoke_from_proto FunctionRegistry.new emptyBatchToFn =
        .ok (.invocation_result InvocationResponse.new) := by
  refine ⟨rfl, by decide⟩

/-- C7 witness: the amended theorem applied to a one-invocation batch and
the empty registry. -/
theorem c7_function_not_found_witness :
    c1ToFn.invocation.invocations ≠ []
    ∧ invoke_from_proto FunctionRegistry.new c1ToFn =
        .error (.FunctionNotFound
          (Address.from_proto c1ToFn.invocation.target).function_type) :=
  ⟨by decide, c7_function_not_found FunctionRegistry.new c1ToFn (by decide) rfl⟩

/-- C1 (amended): for a batch with at least one queued invocation whose
registered function declares a value spec absent (by name) from the
snapshot, `invoke_from_proto` returns an `IncompleteInvocationContext`
listing exactly the absent declared specs, in declaration order, each
carrying its name, typename and the `ExpirationSpec` derived from its
`Expiration` (NONE with 0 milliseconds, or AFTER_INVOKE / AFTER_WRITE with
the TTL in milliseconds); the response does not depend on the registered
handler, so no handler invocation is executed before it is returned. -/
theorem c1_missing_state_negotiation (reg : FunctionRegistry) (rf : FnInvokableFunction)
    (to_function : ToFunction)
    (hinvs : to_function.invocation.invocations ≠ [])
    (hreg : reg (Address.from_proto to_function.invocation.target).function_type = some rf)
    (hmiss : missingStatesOf rf.value_specs
      (parse_persisted_values to_function.invocation.state) ≠ []) :
    invoke_from_proto reg to_function = .ok (.incomplete_invocation_context
      ((missingStatesOf rf.value_specs
        (parse_persisted_values to_function.invocation.state)).map toPersistedValueSpec))
    ∧ ∀ g : Context → Message → Effects,
        invoke_from_proto (FunctionRegistry.register_fn reg
            (Address.from_proto to_function.invocation.target).function_type
            rf.value_specs g) to_function =
          .ok (.incomplete_invocation_context
            ((missingStatesOf rf.value_specs
              (parse_persisted_values to_function.invocation.state)).map
              toPersistedValueSpec)) := by
  obtain ⟨inv, rest, hcons⟩ : ∃ i r, to_function.invocation.invocations = i :: r := by
    cases h : to_function.invocation.invocations with
    | nil => exact absurd h hinvs
    | cons i r => exact ⟨i, r, rfl⟩
  constructor
  · simp only [invoke_from_proto, hcons, invokeLoop]
    rw [registry_invoke_missing reg rf _
      { state := parse_persisted_values to_function.invocation.state
      , self_address := to_function.invocation.target
      , caller_address := inv.caller }
      (Message.new inv.argument) hreg hmiss]
  · intro g
    have hreg2 : (FunctionRegistry.register_fn reg
        (Address.from_proto to_function.invocation.target).function_type
        rf.value_specs g)
          (Address.from_proto to_function.invocation.target).function_type =
        some { value_specs := rf.value_specs, function := g } := by
      simp [FunctionRegistry.register_fn]
    simp only [invoke_from_proto, hcons, invokeLoop]
    rw [registry_invoke_missing _ { value_specs := rf.value_specs, function := g } _
      { state := parse_persisted_values to_function.invocation.state
      , self_address := to_function.invocation.target
      , caller_address := inv.caller }
      (Message.new inv.argument) hreg2 hmiss]

/-- C1 counterexample: the same registry and missing snapshot but zero
queued invocations — the loop body never runs, so the result is an empty
`InvocationResponse`, not the `IncompleteInvocationContext` the claim
requires for every batch with missing declared state. -/
theorem c1_zero_invocations_counterexample :
    missingStatesOf c1Rf.value_specs
      (parse_persisted_values emptyBatchToFn.invocation.state) ≠ []
    ∧ c1Registry (Address.from_proto emptyBatchToFn.invocation.target).function_type =
        some c1Rf
    ∧ invoke_from_proto c1Registry emptyBatchToFn =
        .ok (.invocation_result InvocationResponse.new)
    ∧ resultIsIncomplete (invoke_from_proto c1Registry emptyBatchToFn) = false := by
  refine ⟨by decide, rfl, by decide, by decide⟩

/-- C1 witness: the amended theorem applied to spec scenario S1 — two
declared specs (`seen_count` after-write 5000 ms, `last_seen` never), an
empty snapshot and one queued invocation. -/
theorem c1_missing_state_negotiation_witness :
    c1ToFn.invocation.invocations ≠ []
    ∧ missingStatesOf c1Rf.value_specs (parse_persisted_values c1ToFn.invocation.state) ≠ []
    ∧ invoke_from_proto c1Registry c1ToFn = .ok (.incomplete_invocation_context
        [ { state_name := "seen_count", type_typename := "io.statefun.types/int"
          , expiration_spec := { mode := .AFTER_WRITE, expire_after_millis := 5000 } }
        , { state_name := "last_seen", type_typename := "io.statefun.types/long"
          , expiration_spec := { mode := .NONE, expire_after_millis := 0 } } ]) := by
  refine ⟨by decide, by decide, ?_⟩
  have h := (c1_missing_state_negotiation c1Registry c1Rf c1ToFn (by decide) rfl
    (by decide)).1
  exact h.trans (by decide)

/-- C2: on a registered batch with no missing state, `invoke_from_proto`
succeeds with the response assembled from the effects trace, in which the
`k`-th handler call receives a `Context` whose working map is `stateSeq` at
`k`; that map equals the snapshot with the state effects of invocations
`0..k-1` applied, and `get_state` on it is the lookup in that applied map.
The working map is function-local: nothing escapes the bridge but the
returned response. -/
theorem c2_in_batch_visibility (reg : FunctionRegistry) (rf : FnInvokableFunction)
    (to_function : ToFunction)
    (hreg : reg (Address.from_proto to_function.invocation.target).function_type = some rf)
    (hmiss : missingStatesOf rf.value_specs
      (parse_persisted_values to_function.invocation.state) = []) :
    invoke_from_proto reg to_function = .ok (.invocation_result
      (assembleResponse
        (effectsTrace rf to_function.invocation.target to_function.invocation.invocations
          (parse_persisted_values to_function.invocation.state))
        (coalesceSteps [] (batchStateUpdates rf to_function.invocation.target
          to_function.invocation.invocations
          (parse_persisted_values to_function.invocation.state)))))
    ∧ (∀ k : Nat, stateSeq rf to_function.invocation.target
        to_function.invocation.invocations
        (parse_persisted_values to_function.invocation.state) k =
        applyStateUpdates (parse_persisted_values to_function.invocation.state)
          (((effectsTrace rf to_function.invocation.target
            to_function.invocation.invocations
            (parse_persisted_values to_function.invocation.state)).take k).map
            Effects.state_updates).flatten)
    ∧ (∀ (k : Nat) (inv : ToFnInvocation),
        to_function.invocation.invocations.get? k = some inv →
        (effectsTrace rf to_function.invocation.target to_function.invocation.invocations
          (parse_persisted_values to_function.invocation.state)).get? k =
        some (rf.function
          { state := stateSeq rf to_function.invocation.target
              to_function.invocation.invocations
              (parse_persisted_values to_function.invocation.state) k
          , self_address := to_function.invocation.target
          , caller_address := inv.caller }
          (Message.new inv.argument)))
    ∧ (∀ (T : Type) (k : Nat) (value_spec : ValueSpecBase)
        (deserializer : String → List Nat → T) (caller : ProtoAddress),
        Context.get_state
          { state := stateSeq rf to_function.invocation.target
              to_function.invocation.invocations
              (parse_persisted_values to_function.invocation.state) k
          , self_address := to_function.invocation.target
          , caller_address := caller }
          value_spec deserializer =
        (lookupState
          (applyStateUpdates (parse_persisted_values to_function.invocation.state)
            (((effectsTrace rf to_function.invocation.target
              to_function.invocation.invocations
              (parse_persisted_values to_function.invocation.state)).take k).map
              Effects.state_updates).flatten)
          value_spec).map (deserializer value_spec.typename)) := by
  have hchar := invokeLoop_characterization reg to_function.invocation.target rf hreg
    to_function.invocation.invocations
    (parse_persisted_values to_function.invocation.state) [] InvocationResponse.new hmiss
  refine ⟨?_, ?_, ?_, ?_⟩
  · simpa [invoke_from_proto, assembleResponse, InvocationResponse.new,
      batchStateUpdates] using hchar
  · intro k
    exact stateSeq_closed_form rf to_function.invocation.target
      to_function.invocation.invocations
      (parse_persisted_values to_function.invocation.state) k
  · intro k inv h
    exact effectsTrace_get rf to_function.invocation.target
      to_function.invocation.invocations
      (parse_persisted_values to_function.invocation.state) k inv h
  · intro T k value_spec deserializer caller
    rw [get_state_eq_lookup]
    rw [stateSeq_closed_form]

/-- C2 witness: the theorem applied to a two-invocation batch whose handler
writes `counter := 1`; invocation 1 (0-based) observes the working map left
by invocation 0, and its `get_state` of `counter` decodes to 1 while the
snapshot held an empty cell. -/
theorem c2_in_batch_visibility_witness :
    missingStatesOf c2Rf.value_specs (parse_persisted_values c2ToFn.invocation.state) = []
    ∧ stateSeq c2Rf c2ToFn.invocation.target c2ToFn.invocation.invocations
        (parse_persisted_values c2ToFn.invocation.state) 1 =
      applyStateUpdates (parse_persisted_values c2ToFn.invocation.state)
        (((effectsTrace c2Rf c2ToFn.invocation.target c2ToFn.invocation.invocations
          (parse_persisted_values c2ToFn.invocation.state)).take 1).map
          Effects.state_updates).flatten
    ∧ Context.get_state
        { state := stateSeq c2Rf c2ToFn.invocation.target c2ToFn.invocation.invocations
            (parse_persisted_values c2ToFn.invocation.state) 1
        , self_address := c2ToFn.invocation.target
        , caller_address := exIngressCaller }
        counterSpec (fun _ bs => deserialize_i32 bs) = some (.ok 1) := by
  refine ⟨by decide, ?_, by decide⟩
  exact (c2_in_batch_visibility c2Registry c2Rf c2ToFn rfl (by decide)).2.1 1

/-- C3: on a registered batch with no missing state the response's
`state_mutations` are exactly the final coalesced map's entries; the
coalesced map has at most one entry per spec key, and its entry for every
spec is the last state effect any invocation of the batch produced for that
spec — so an Update followed by a Delete leaves only the Delete, and a
Delete followed by an Update leaves only the Update. -/
theorem c3_coalesced_mutations (reg : FunctionRegistry) (rf : FnInvokableFunction)
    (to_function : ToFunction)
    (hreg : reg (Address.from_proto to_function.invocation.target).function_type = some rf)
    (hmiss : missingStatesOf rf.value_specs
      (parse_persisted_values to_function.invocation.state) = []) :
    invoke_from_proto reg to_function = .ok (.invocation_result
      (assembleResponse
        (effectsTrace rf to_function.invocation.target to_function.invocation.invocations
          (parse_persisted_values to_function.invocation.state))
        (coalesceSteps [] (batchStateUpdates rf to_function.invocation.target
          to_function.invocation.invocations
          (parse_persisted_values to_function.invocation.state)))))
    ∧ (assembleResponse
        (effectsTrace rf to_function.invocation.target to_function.invocation.invocations
          (parse_persisted_values to_function.invocation.state))
        (coalesceSteps [] (batchStateUpdates rf to_function.invocation.target
          to_function.invocation.invocations
          (parse_persisted_values to_function.invocation.state)))).state_mutations =
      (coalesceSteps [] (batchStateUpdates rf to_function.invocation.target
        to_function.invocation.invocations
        (parse_persisted_values to_function.invocation.state))).map
        (fun kv => mutationOfUpdate kv.2)
    ∧ ((coalesceSteps [] (batchStateUpdates rf to_function.invocation.target
        to_function.invocation.invocations
        (parse_persisted_values to_function.invocation.state))).map Prod.fst).Nodup
    ∧ (∀ s : ValueSpecBase,
        lookupCoalesced (coalesceSteps [] (batchStateUpdates rf
          to_function.invocation.target to_function.invocation.invocations
          (parse_persisted_values to_function.invocation.state))) s =
        lastUpdateFor s (batchStateUpdates rf to_function.invocation.target
          to_function.invocation.invocations
          (parse_persisted_values to_function.invocation.state))) := by
  have hchar := invokeLoop_characterization reg to_function.invocation.target rf hreg
    to_function.invocation.invocations
    (parse_persisted_values to_function.invocation.state) [] InvocationResponse.new hmiss
  refine ⟨?_, rfl, ?_, ?_⟩
  · simpa [invoke_from_proto, assembleResponse, InvocationResponse.new,
      batchStateUpdates] using hchar
  · exact coalesceSteps_keys_nodup _ [] (by simp)
  · intro s
    rw [lookupCoalesced_coalesceSteps]
    cases lastUpdateFor s (batchStateUpdates rf to_function.invocation.target
      to_function.invocation.invocations
      (parse_persisted_values to_function.invocation.state)) <;>
      simp [lookupCoalesced]

/-- C3 witness: the theorem applied to spec scenario S3 — one invocation
that updates `counter` and then deletes it; the batch's last effect for
`counter` is the Delete, and the response carries that single mutation. -/
theorem c3_coalesced_mutations_witness :
    missingStatesOf c3Rf.value_specs (parse_persisted_values c3ToFn.invocation.state) = []
    ∧ lookupCoalesced (coalesceSteps [] (batchStateUpdates c3Rf c3ToFn.invocation.target
        c3ToFn.invocation.invocations (parse_persisted_values c3ToFn.invocation.state)))
        counterSpec =
      lastUpdateFor counterSpec (batchStateUpdates c3Rf c3ToFn.invocation.target
        c3ToFn.invocation.invocations (parse_persisted_values c3ToFn.invocation.state))
    ∧ lastUpdateFor counterSpec (batchStateUpdates c3Rf c3ToFn.invocation.target
        c3ToFn.invocation.invocations (parse_persisted_values c3ToFn.invocation.state)) =
      some (.Delete counterSpec)
    ∧ (coalesceSteps [] (batchStateUpdates c3Rf c3ToFn.invocation.target
        c3ToFn.invocation.invocations
        (parse_persisted_values c3ToFn.invocation.state))).map
        (fun kv => mutationOfUpdate kv.2) =
      [ { state_name := "counter", mutation_type := .DELETE, state_value := none } ] := by
  refine ⟨by decide, ?_, by decide, by decide⟩
  exact (c3_coalesced_mutations c3Registry c3Rf c3ToFn rfl (by decide)).2.2.2 counterSpec

/-- C6 (amended): on a registered batch with no missing state, each of the
response's repeated fields preserves, across invocations in batch order,
the emission order within its effect category; delayed sends and
cancellations share the response's `delayed_invocations` list, where for
each invocation all of its delayed sends (in emission order) precede all of
its cancellations (in emission order) — so a delayed send and a
cancellation with the same token emitted in one batch are both forwarded,
but not necessarily in their relative emission order. -/
theorem c6_response_order (reg : FunctionRegistry) (rf : FnInvokableFunction)
    (to_function : ToFunction)
    (hreg : reg (Address.from_proto to_function.invocation.target).function_type = some rf)
    (hmiss : missingStatesOf rf.value_specs
      (parse_persisted_values to_function.invocation.state) = []) :
    invoke_from_proto reg to_function = .ok (.invocation_result
      (assembleResponse
        (effectsTrace rf to_function.invocation.target to_function.invocation.invocations
          (parse_persisted_values to_function.invocation.state))
        (coalesceSteps [] (batchStateUpdates rf to_function.invocation.target
          to_function.invocation.invocations
          (parse_persisted_values to_function.invocation.state)))))
    ∧ (∀ (trace : List Effects) (coalesced : CoalescedStates),
        (assembleResponse trace coalesced).outgoing_messages =
          (trace.map outgoingOf).flatten
        ∧ (assembleResponse trace coalesced).delayed_invocations =
          (trace.map delayedOf).flatten
        ∧ (assembleResponse trace coalesced).outgoing_egresses =
          (trace.map egressOf).flatten)
    ∧ (∀ e : Effects, delayedOf e =
        e.delayed_invocations.map
          (fun d => { is_cancellation_request := false
                    , target := some d.address.into_proto
                    , delay_in_ms := (d.delay_ms : Int)
                    , cancellation_token := d.cancellation_token
                    , argument := some (to_typed_value d.typename d.bytes) })
        ++ e.cancelled_delayed_invocations.map
          (fun tok => { is_cancellation_request := true
                      , target := none
                      , delay_in_ms := 0
                      , cancellation_token := tok
                      , argument := none })) := by
  have hchar := invokeLoop_characterization reg to_function.invocation.target rf hreg
    to_function.invocation.invocations
    (parse_persisted_values to_function.invocation.state) [] InvocationResponse.new hmiss
  refine ⟨?_, ?_, ?_⟩
  · simpa [invoke_from_proto, assembleResponse, InvocationResponse.new,
      batchStateUpdates] using hchar
  · intro trace coalesced
    exact ⟨rfl, rfl, rfl⟩
  · intro e
    rfl

/-- C6 counterexample: the handler emits `cancel_delayed_message("tok-1")`
first and `send_after(..., "tok-1", ...)` second, yet the response's
`delayed_invocations` lists the delayed send before the cancellation — the
response order does not match the order in which the Effects appended them. -/
theorem c6_cancel_order_counterexample :
    (Effects.cancel_delayed_message Effects.new "tok-1").cancelled_delayed_invocations =
      ["tok-1"]
    ∧ invoke_from_proto c6Registry c6ToFn = .ok (.invocation_result
      { outgoing_messages := []
      , delayed_invocations :=
          [ { is_cancellation_request := false
            , target := some delayedTargetAddress.into_proto
            , delay_in_ms := 3000
            , cancellation_token := "tok-1"
            , argument := some (to_typed_value ("io.statefun.types/string")
                (serialize_string [104, 105])) }
          , { is_cancellation_request := true
            , target := none
            , delay_in_ms := 0
            , cancellation_token := "tok-1"
            , argument := none } ]
      , outgoing_egresses := []
      , state_mutations := [] })
    ∧ [false, true] ≠ [true, false] := by
  refine ⟨by decide, by decide, by decide⟩

/-- C6 witness: the amended theorem applied to the cancellation-order
batch. -/
theorem c6_response_order_witness :
    missingStatesOf c6Rf.value_specs (parse_persisted_values c6ToFn.invocation.state) = []
    ∧ invoke_from_proto c6Registry c6ToFn = .ok (.invocation_result
      (assembleResponse
        (effectsTrace c6Rf c6ToFn.invocation.target c6ToFn.invocation.invocations
          (parse_persisted_values c6ToFn.invocation.state))
        (coalesceSteps [] (batchStateUpdates c6Rf c6ToFn.invocation.target
          c6ToFn.invocation.invocations
          (parse_persisted_values c6ToFn.invocation.state))))) :=
  ⟨by decide, (c6_response_order c6Registry c6Rf c6ToFn rfl (by decide)).1⟩

/-- C9: the built-in codecs round-trip: for bool, i32, i64 and String every
in-range value decodes back from its encoding; for f32 and f64 (taken as
IEEE-754 bit patterns) every non-NaN in-range pattern decodes back to a
value Rust-`==`-equal to the original (both zeros are identified, as Rust
float equality does). -/
theorem c9_builtin_roundtrip :
    (∀ b : Bool, deserialize_bool (serialize_bool b) = .ok b)
    ∧ (∀ v : Int, -2147483648 ≤ v → v < 2147483648 →
        deserialize_i32 (serialize_i32 v) = .ok v)
    ∧ (∀ v : Int, -9223372036854775808 ≤ v → v < 9223372036854775808 →
        deserialize_i64 (serialize_i64 v) = .ok v)
    ∧ (∀ p : Nat, p < 4294967296 → f32IsNaN p = false →
        ∃ q, deserialize_f32 (serialize_f32 p) = .ok q ∧ f32ValEq q p = true)
    ∧ (∀ p : Nat, p < 18446744073709551616 → f64IsNaN p = false →
        ∃ q, deserialize_f64 (serialize_f64 p) = .ok q ∧ f64ValEq q p = true)
    ∧ (∀ s : List Nat, deserialize_string (serialize_string s) = .ok s) := by
  refine ⟨?_, ?_, ?_, ?_, ?_, ?_⟩
  · intro b
    cases b <;> decide
  · intro v h1 h2
    by_cases h : v = 0
    · subst h; decide
    · simp only [serialize_i32, if_neg h, deserialize_i32]
      have henc := fixed32Decode_encode (toU32 v) (toU32_lt v) []
      rw [List.append_nil] at henc
      rw [henc]
      simp [fromU32_toU32 v h1 h2]
  · intro v h1 h2
    by_cases h : v = 0
    · subst h; decide
    · simp only [serialize_i64, if_neg h, deserialize_i64]
      have henc := fixed64Decode_encode (toU64 v) (toU64_lt v) []
      rw [List.append_nil] at henc
      rw [henc]
      simp [fromU64_toU64 v h1 h2]
  · intro p hp hnan
    by_cases hz : f32IsZero p = true
    · refine ⟨0, ?_, ?_⟩
      · simp [serialize_f32, hz, deserialize_f32]
      · have hnz : f32IsNaN 0 = false := by decide
        have hz0 : f32IsZero 0 = true := by decide
        simp [f32ValEq, hnan, hz, hnz, hz0]
    · have hzf : f32IsZero p = false := by
        cases hf : f32IsZero p
        · rfl
        · exact absurd hf hz
      refine ⟨p, ?_, ?_⟩
      · simp only [serialize_f32, hzf, Bool.false_eq_true, if_false, deserialize_f32]
        have henc := fixed32Decode_encode p hp []
        rw [List.append_nil] at henc
        rw [henc]
      · simp [f32ValEq, hnan]
  · intro p hp hnan
    by_cases hz : f64IsZero p = true
    · refine ⟨0, ?_, ?_⟩
      · simp [serialize_f64, hz, deserialize_f64]
      · have hnz : f64IsNaN 0 = false := by decide
        have hz0 : f64IsZero 0 = true := by decide
        simp [f64ValEq, hnan, hz, hnz, hz0]
    · have hzf : f64IsZero p = false := by
        cases hf : f64IsZero p
        · rfl
        · exact absurd hf hz
      refine ⟨p, ?_, ?_⟩
      · simp only [serialize_f64, hzf, Bool.false_eq_true, if_false, deserialize_f64]
        have henc := fixed64Decode_encode p hp []
        rw [List.append_nil] at henc
        rw [henc]
      · simp [f64ValEq, hnan]
  · intro s
    by_cases h : s = []
    · subst h; decide
    · simp only [serialize_string, if_neg h, deserialize_string]
      rw [varintDecode_encode s.length s]
      simp

/-- C9 witness: the round-trip theorem applied at concrete values of each
kind. -/
theorem c9_builtin_roundtrip_witness :
    deserialize_bool (serialize_bool true) = .ok true
    ∧ ((-2147483648 : Int) ≤ -5 ∧ (-5 : Int) < 2147483648
        ∧ deserialize_i32 (serialize_i32 (-5)) = .ok (-5))
    ∧ deserialize_i64 (serialize_i64 7) = .ok 7
    ∧ (∃ q, deserialize_f32 (serialize_f32 1065353216) = .ok q
        ∧ f32ValEq q 1065353216 = true)
    ∧ deserialize_string (serialize_string [104, 105]) = .ok [104, 105] := by
  refine ⟨c9_builtin_roundtrip.1 true,
    ⟨by decide, by decide, c9_builtin_roundtrip.2.1 (-5) (by decide) (by decide)⟩,
    c9_builtin_roundtrip.2.2.1 7 (by decide) (by decide),
    c9_builtin_roundtrip.2.2.2.1 1065353216 (by decide) (by decide),
    c9_builtin_roundtrip.2.2.2.2.2 [104, 105]⟩
